import Mathlib

/-!
Shallow embedding of the data-operation engine of the CSV-to-sheet
automation program (`sheets-automation.js`), together with proofs about
its cell-reference algebra, operation validator and operation dispatcher.

Numbers computed by the JavaScript source are integers in every reachable
state, so they are embedded as `Int` (column numbers, row numbers) or
`Nat` (lengths, indices). JavaScript exceptions are embedded as `Option`
or `Except` results; remote spreadsheet calls are embedded as emitted
events, and the CSV loader as a function parameter returning `Except`.
-/

namespace CsvToSheet

/-- Character class of the regex `[A-Z]` used in `getEndCell`. -/
def isUpperAZ (c : Char) : Bool := 65 ≤ c.toNat && c.toNat ≤ 90

/-- Character class of the regex `\d` used in `getEndCell`. -/
def isDigitCh (c : Char) : Bool := 48 ≤ c.toNat && c.toNat ≤ 57

/-- First match of the regex `p+` in a character list: JavaScript
`String.prototype.match` without the global flag returns the first maximal
run of characters satisfying `p`, wherever it occurs, or `null` (here
`none`) when no character satisfies `p`. -/
def firstRun (p : Char → Bool) : List Char → Option (List Char)
  | [] => none
  | c :: cs => if p c then some (c :: cs.takeWhile p) else firstRun p cs

/-- `columnToNumber` of the source, on the character list of its argument:
`result = result * 26 + (column.charCodeAt(i) - 64)` folded left to right,
starting from 0. JavaScript arithmetic on integer char codes is exact, so
the accumulator is an `Int`. -/
def colToNum (l : List Char) : Int :=
  l.foldl (fun r c => r * 26 + ((c.toNat : Int) - 64)) 0

/-- `columnToNumber(column)` from `sheets-automation.js` (lines 390-396). -/
def columnToNumber (column : String) : Int := colToNum column.data

/-- The character list built by the `while` loop of `getColumnLetter`:
for `n = 0` the loop does not run and the result is empty; otherwise one
step prepends `String.fromCharCode((n-1) % 26 + 65)` and continues with
`(n - ((n-1) % 26) - 1) / 26 = (n-1) / 26`. -/
def numToColChars (n : Nat) : List Char :=
  if h : n = 0 then []
  else numToColChars ((n - 1) / 26) ++ [Char.ofNat ((n - 1) % 26 + 65)]
termination_by n
decreasing_by
  exact Nat.lt_of_le_of_lt (Nat.div_le_self _ _)
    (Nat.sub_lt (Nat.pos_of_ne_zero h) Nat.one_pos)

/-- `getColumnLetter(column)` from `sheets-automation.js` (lines 403-412).
The source's `while (column > 0)` loop never runs for `column ≤ 0`, so
the function returns `""` there; this is captured by `Int.toNat`. -/
def getColumnLetter (column : Int) : String := String.mk (numToColChars column.toNat)

/-- Value of `parseInt` on a non-empty run of decimal digit characters:
left fold of `a * 10 + digit`. -/
def natOfDigits (l : List Char) : Nat :=
  l.foldl (fun a c => a * 10 + (c.toNat - 48)) 0

/-- Decimal rendering of a natural number, as JavaScript template
interpolation renders a non-negative integer. -/
def natToDigits (n : Nat) : List Char :=
  if h : n < 10 then [Char.ofNat (n + 48)]
  else natToDigits (n / 10) ++ [Char.ofNat (n % 10 + 48)]
termination_by n
decreasing_by
  exact Nat.div_lt_self (by omega) (by omega)

/-- Decimal rendering of an integer, as JavaScript template interpolation
renders an integer (a leading minus sign when negative). -/
def intToDigits (i : Int) : List Char :=
  if i < 0 then '-' :: natToDigits (-i).toNat else natToDigits i.toNat

/-- `getMaxRowLength(data)` from `sheets-automation.js` (lines 419-425). -/
def getMaxRowLength (data : List (List String)) : Nat :=
  data.foldl (fun m row => max m row.length) 0

/-- `getEndCell(startCell, data)` from `sheets-automation.js` (lines
364-383). The two regex matches `[A-Z]+` and `\d+` are `firstRun`s over
the characters of `startCell`; if either is `null` the source throws
`Invalid cell reference` (here `none`). Otherwise
`endRow = parseInt(rowMatch) + data.length - 1` and
`endCol = getColumnLetter(columnToNumber(colMatch) + getMaxRowLength(data) - 1)`,
and the result is the concatenation `endCol` then the decimal digits of
`endRow`. -/
def getEndCell (startCell : String) (data : List (List String)) : Option String :=
  match firstRun isUpperAZ startCell.data, firstRun isDigitCh startCell.data with
  | some colChars, some rowChars =>
    let startRow : Int := natOfDigits rowChars
    let endRow : Int := startRow + data.length - 1
    let endCol : String := getColumnLetter (colToNum colChars + getMaxRowLength data - 1)
    some (endCol ++ String.mk (intToDigits endRow))
  | _, _ => none

/-- A string of the canonical form `<ColumnLetters><RowDigits>`: a
non-empty run of uppercase letters followed by a non-empty run of decimal
digits and nothing else. -/
def isWellFormedRef (s : String) : Bool :=
  let ls := s.data.takeWhile isUpperAZ
  let rest := s.data.dropWhile isUpperAZ
  !ls.isEmpty && !rest.isEmpty && rest.all isDigitCh

/-- A raw operation object from the configuration: each field may be
absent (`none`, JavaScript `undefined`) or present with a string value. -/
structure RawOp where
  sheetName : Option String
  dataPath : Option String
  operationType : Option String
  cellId : Option String
deriving DecidableEq

/-- JavaScript falsiness of an optional string field: `undefined` and the
empty string are falsy, every other string is truthy. -/
def falsy : Option String → Bool
  | none => true
  | some s => s.isEmpty

/-- The per-operation checks of `validateConfig` (lines 83-98 of
`sheets-automation.js`): `config.operations.forEach` with a thrown error
aborting the traversal, `i` being the 1-based index `index + 1` used in
the messages. The source message quotes `replaceAtCell`; the quotes are
elided here. -/
def checkOps : Nat → List RawOp → Except String Unit
  | _, [] => Except.ok ()
  | i, op :: rest =>
    if falsy op.sheetName then
      Except.error ("Operation #" ++ toString i ++ " is missing sheetName")
    else if falsy op.dataPath then
      Except.error ("Operation #" ++ toString i ++ " is missing dataPath")
    else if falsy op.operationType then
      Except.error ("Operation #" ++ toString i ++ " is missing operationType")
    else if op.operationType == some "replaceAtCell" && falsy op.cellId then
      Except.error ("Operation #" ++ toString i ++ " with type replaceAtCell is missing cellId")
    else checkOps (i + 1) rest

/-- The operations-validation portion of `validateConfig` (lines 78-98 of
`sheets-automation.js`): a present `operations` array of length 0 fails
with the non-empty-array error, otherwise each element is checked in
order. -/
def validateConfigOperations (ops : List RawOp) : Except String Unit :=
  if ops.length = 0 then Except.error "Operations must be a non-empty array"
  else checkOps 1 ops

/-- The spec's description of the column value of a letter string: each
letter contributes `value * 26 + charValue` where `charValue` is 1-based
(`A` = 1). Stated for comparison with `columnToNumber`. -/
def specColumnValue (l : List Char) : Int :=
  l.foldl (fun v c => v * 26 + ((c.toNat : Int) - ('A'.toNat : Int) + 1)) 0

/-- An operation that passes every per-element check of `validateConfig`:
all three required fields are truthy, and `cellId` is truthy when the
type is `replaceAtCell`. -/
def opOk (op : RawOp) : Bool :=
  !falsy op.sheetName && !falsy op.dataPath && !falsy op.operationType &&
    !(op.operationType == some "replaceAtCell" && falsy op.cellId)

/-- One observable effect of the dispatcher: a skip warning, a range
clear, a range write (`spreadsheets.values.update`), or an
unknown-operation-type warning. -/
inductive Event
  | warnSheetNotFound (name : String)
  | clearValues (range : String)
  | updateValues (range : String) (values : List (List String))
  | warnUnknownType (t : String)
deriving DecidableEq

/-- An operation as consumed by the dispatcher. `cellId` stays optional:
the dispatcher reads it without re-checking presence. -/
structure DispOp where
  sheetName : String
  dataPath : String
  operationType : String
  cellId : Option String
deriving DecidableEq

/-- `replaceEntireSheet` (lines 300-323): clear the sheet's range, then
write `data` to it. Both remote calls are recorded as events. -/
def replaceEntireSheet (sheetName : String) (data : List (List String)) : List Event :=
  [Event.clearValues sheetName, Event.updateValues sheetName data]

/-- `replaceAtCell` (lines 333-356): build the range
`sheetName!cellId:endCell` and write `data` to it. An absent `cellId`
makes `getEndCell` dereference `undefined` (a `TypeError`), and a start
cell with no letter run or no digit run makes `getEndCell` throw; both
propagate as errors. -/
def replaceAtCell (sheetName : String) (cellId : Option String)
    (data : List (List String)) : Except String (List Event) :=
  match cellId with
  | none => Except.error "TypeError"
  | some cid =>
    match getEndCell cid data with
    | none => Except.error ("Invalid cell reference: " ++ cid)
    | some endc =>
      Except.ok [Event.updateValues (sheetName ++ "!" ++ cid ++ ":" ++ endc) data]

/-- JavaScript truthiness of `sheetsMap[name]`: `undefined` (absent name)
is falsy, and so is the number 0 — a sheet whose id is 0 fails the
`if (!sheetsMap[operation.sheetName])` test exactly like an absent one. -/
def truthyId : Option Nat → Bool
  | none => false
  | some n => !(n == 0)

/-- The per-operation loop of `processDataOperations` (lines 222-260 of
`sheets-automation.js`). `registry` is the `sheetsMap` built from the
spreadsheet snapshot; `loader` is `readCsvFile`, whose failure is thrown
and rethrown by the surrounding `try`/`catch`, aborting the remaining
operations. The result is the list of emitted events together with the
propagated fatal error, if any. -/
def processDataOperations (registry : String → Option Nat)
    (loader : String → Except String (List (List String))) :
    List DispOp → List Event × Option String
  | [] => ([], none)
  | op :: rest =>
    if truthyId (registry op.sheetName) = false then
      let r := processDataOperations registry loader rest
      (Event.warnSheetNotFound op.sheetName :: r.1, r.2)
    else
      match loader op.dataPath with
      | Except.error e => ([], some e)
      | Except.ok csvData =>
        if op.operationType == "replaceEntireSheet" then
          let r := processDataOperations registry loader rest
          (replaceEntireSheet op.sheetName csvData ++ r.1, r.2)
        else if op.operationType == "replaceAtCell" then
          match replaceAtCell op.sheetName op.cellId csvData with
          | Except.error e => ([], some e)
          | Except.ok evs =>
            let r := processDataOperations registry loader rest
            (evs ++ r.1, r.2)
        else
          let r := processDataOperations registry loader rest
          (Event.warnUnknownType op.operationType :: r.1, r.2)

/-! ## Helper lemmas: bijective base-26 conversion -/

theorem colToNum_append (l : List Char) (c : Char) :
    colToNum (l ++ [c]) = colToNum l * 26 + ((c.toNat : Int) - 64) := by
  simp [colToNum, List.foldl_append]

theorem numToColChars_zero : numToColChars 0 = [] := by
  rw [numToColChars]
  rfl

theorem numToColChars_pos (n : Nat) (h : n ≠ 0) :
    numToColChars n = numToColChars ((n - 1) / 26) ++ [Char.ofNat ((n - 1) % 26 + 65)] := by
  rw [numToColChars]
  simp [h]

theorem char_upper_ofNat : ∀ k, k < 26 →
    (Char.ofNat (k + 65)).toNat = k + 65 ∧ isUpperAZ (Char.ofNat (k + 65)) = true := by
  decide

theorem colToNum_numToColChars : ∀ n : Nat, colToNum (numToColChars n) = (n : Int) := by
  intro n
  induction n using Nat.strong_induction_on with
  | _ n ih =>
    by_cases h : n = 0
    · subst h
      simp [numToColChars_zero, colToNum]
    · rw [numToColChars_pos n h, colToNum_append,
        ih ((n - 1) / 26) (Nat.lt_of_le_of_lt (Nat.div_le_self _ _)
          (Nat.sub_lt (Nat.pos_of_ne_zero h) Nat.one_pos)),
        (char_upper_ofNat ((n - 1) % 26) (Nat.mod_lt _ (by omega))).1]
      have hdm := Nat.div_add_mod (n - 1) 26
      omega

theorem numToColChars_upper : ∀ n : Nat, ∀ c ∈ numToColChars n, isUpperAZ c = true := by
  intro n
  induction n using Nat.strong_induction_on with
  | _ n ih =>
    by_cases h : n = 0
    · subst h
      simp [numToColChars_zero]
    · rw [numToColChars_pos n h]
      intro c hc
      rcases List.mem_append.mp hc with hl | hr
      · exact ih ((n - 1) / 26) (Nat.lt_of_le_of_lt (Nat.div_le_self _ _)
          (Nat.sub_lt (Nat.pos_of_ne_zero h) Nat.one_pos)) c hl
      · rw [List.mem_singleton.mp hr]
        exact (char_upper_ofNat ((n - 1) % 26) (Nat.mod_lt _ (by omega))).2

theorem numToColChars_step (m d : Nat) (h1 : 1 ≤ d) (h2 : d ≤ 26) :
    numToColChars (m * 26 + d) = numToColChars m ++ [Char.ofNat (d + 64)] := by
  rw [numToColChars_pos (m * 26 + d) (by omega)]
  have hdiv : (m * 26 + d - 1) / 26 = m := by omega
  have hmod : (m * 26 + d - 1) % 26 + 65 = d + 64 := by omega
  rw [hdiv, hmod]

theorem colToNum_step_ge_one (l : List Char) :
    ∀ a : Int, (∀ c ∈ l, isUpperAZ c = true) → 1 ≤ a →
      1 ≤ l.foldl (fun r c => r * 26 + ((c.toNat : Int) - 64)) a := by
  induction l with
  | nil => intro a _ ha; simpa using ha
  | cons c t ih =>
    intro a hall ha
    simp only [List.foldl_cons]
    have hc : isUpperAZ c = true := hall c (List.mem_cons_self c t)
    have hcn : 65 ≤ c.toNat := by
      simp only [isUpperAZ, Bool.and_eq_true, decide_eq_true_eq] at hc
      omega
    exact ih _ (fun x hx => hall x (List.mem_cons_of_mem c hx)) (by omega)

theorem colToNum_pos (l : List Char) (hne : l ≠ [])
    (hall : ∀ c ∈ l, isUpperAZ c = true) : 1 ≤ colToNum l := by
  cases l with
  | nil => exact absurd rfl hne
  | cons c t =>
    have hc : isUpperAZ c = true := hall c (List.mem_cons_self c t)
    have hcn : 65 ≤ c.toNat ∧ c.toNat ≤ 90 := by
      simp only [isUpperAZ, Bool.and_eq_true, decide_eq_true_eq] at hc
      omega
    simp only [colToNum, List.foldl_cons]
    exact colToNum_step_ge_one t _ (fun x hx => hall x (List.mem_cons_of_mem c hx)) (by omega)

theorem colToNum_nonneg (l : List Char)
    (hall : ∀ c ∈ l, isUpperAZ c = true) : 0 ≤ colToNum l := by
  cases l with
  | nil => simp [colToNum]
  | cons c t => exact le_trans (by omega) (colToNum_pos (c :: t) (by simp) hall)

theorem numToColChars_colToNum : ∀ l : List Char,
    (∀ c ∈ l, isUpperAZ c = true) → numToColChars (colToNum l).toNat = l := by
  intro l
  induction l using List.reverseRecOn with
  | nil => intro _; simp [colToNum, numToColChars_zero]
  | append_singleton t c ih =>
    intro hall
    have ht : ∀ x ∈ t, isUpperAZ x = true := fun x hx =>
      hall x (List.mem_append.mpr (Or.inl hx))
    have hc : isUpperAZ c = true := hall c (List.mem_append.mpr (Or.inr (by simp)))
    have hcn : 65 ≤ c.toNat ∧ c.toNat ≤ 90 := by
      simp only [isUpperAZ, Bool.and_eq_true, decide_eq_true_eq] at hc
      omega
    have hv : 0 ≤ colToNum t := colToNum_nonneg t ht
    rw [colToNum_append]
    have htn : (colToNum t * 26 + ((c.toNat : Int) - 64)).toNat
        = (colToNum t).toNat * 26 + (c.toNat - 64) := by omega
    rw [htn, numToColChars_step _ _ (by omega) (by omega), ih ht]
    congr 2
    have : c.toNat - 64 + 64 = c.toNat := by omega
    rw [this, Char.ofNat_toNat]

/-! ## Helper lemmas: decimal rendering -/

theorem natToDigits_lt (n : Nat) (h : n < 10) : natToDigits n = [Char.ofNat (n + 48)] := by
  rw [natToDigits]
  simp [h]

theorem natToDigits_ge (n : Nat) (h : 10 ≤ n) :
    natToDigits n = natToDigits (n / 10) ++ [Char.ofNat (n % 10 + 48)] := by
  rw [natToDigits]
  simp [Nat.not_lt.mpr h]

theorem char_digit_ofNat : ∀ k, k < 10 →
    (Char.ofNat (k + 48)).toNat = k + 48 ∧ isDigitCh (Char.ofNat (k + 48)) = true := by
  decide

theorem natOfDigits_append (l : List Char) (c : Char) :
    natOfDigits (l ++ [c]) = natOfDigits l * 10 + (c.toNat - 48) := by
  simp [natOfDigits, List.foldl_append]

theorem natOfDigits_natToDigits : ∀ n : Nat, natOfDigits (natToDigits n) = n := by
  intro n
  induction n using Nat.strong_induction_on with
  | _ n ih =>
    by_cases h : n < 10
    · rw [natToDigits_lt n h]
      have := (char_digit_ofNat n h).1
      simp [natOfDigits, this]
    · rw [natToDigits_ge n (Nat.not_lt.mp h), natOfDigits_append,
        ih (n / 10) (Nat.div_lt_self (by omega) (by omega)),
        (char_digit_ofNat (n % 10) (Nat.mod_lt _ (by omega))).1]
      omega

theorem natToDigits_digits : ∀ n : Nat, ∀ c ∈ natToDigits n, isDigitCh c = true := by
  intro n
  induction n using Nat.strong_induction_on with
  | _ n ih =>
    by_cases h : n < 10
    · rw [natToDigits_lt n h]
      intro c hc
      rw [List.mem_singleton.mp hc]
      exact (char_digit_ofNat n h).2
    · rw [natToDigits_ge n (Nat.not_lt.mp h)]
      intro c hc
      rcases List.mem_append.mp hc with hl | hr
      · exact ih (n / 10) (Nat.div_lt_self (by omega) (by omega)) c hl
      · rw [List.mem_singleton.mp hr]
        exact (char_digit_ofNat (n % 10) (Nat.mod_lt _ (by omega))).2

theorem natToDigits_ne_nil (n : Nat) : natToDigits n ≠ [] := by
  by_cases h : n < 10
  · rw [natToDigits_lt n h]
    simp
  · rw [natToDigits_ge n (Nat.not_lt.mp h)]
    simp

/-! ## Helper lemmas: first regex match -/

theorem firstRun_eq_none_iff (p : Char → Bool) (l : List Char) :
    firstRun p l = none ↔ ∀ c ∈ l, p c = false := by
  induction l with
  | nil => simp [firstRun]
  | cons c t ih =>
    cases hc : p c with
    | true =>
      have heq : firstRun p (c :: t) = some (c :: t.takeWhile p) := by
        simp [firstRun, hc]
      rw [heq]
      constructor
      · intro h
        exact absurd h (by simp)
      · intro h
        have hcf := h c (List.mem_cons_self c t)
        rw [hc] at hcf
        exact Bool.noConfusion hcf
    | false =>
      have heq : firstRun p (c :: t) = firstRun p t := by
        simp [firstRun, hc]
      rw [heq, ih]
      constructor
      · intro h x hx
        rcases List.mem_cons.mp hx with rfl | hx
        · exact hc
        · exact h x hx
      · intro h x hx
        exact h x (List.mem_cons_of_mem c hx)

theorem firstRun_skip (p : Char → Bool) (l1 l2 : List Char)
    (h : ∀ c ∈ l1, p c = false) : firstRun p (l1 ++ l2) = firstRun p l2 := by
  induction l1 with
  | nil => simp
  | cons c t ih =>
    have hc : p c = false := h c (List.mem_cons_self c t)
    simp only [List.cons_append, firstRun, hc]
    exact ih fun x hx => h x (List.mem_cons_of_mem c hx)

theorem takeWhile_append_of_all (p : Char → Bool) (l1 l2 : List Char)
    (h : ∀ c ∈ l1, p c = true) :
    List.takeWhile p (l1 ++ l2) = l1 ++ List.takeWhile p l2 := by
  induction l1 with
  | nil => simp
  | cons c t ih =>
    have hc : p c = true := h c (List.mem_cons_self c t)
    simp only [List.cons_append, List.takeWhile_cons, hc, if_pos]
    rw [ih fun x hx => h x (List.mem_cons_of_mem c hx)]

theorem takeWhile_eq_nil_of_all (p : Char → Bool) (l : List Char)
    (h : ∀ c ∈ l, p c = false) : List.takeWhile p l = [] := by
  cases l with
  | nil => rfl
  | cons c t =>
    have hc : p c = false := h c (List.mem_cons_self c t)
    simp [List.takeWhile_cons, hc]

theorem firstRun_exact (p : Char → Bool) (l1 l2 : List Char) (hne : l1 ≠ [])
    (h1 : ∀ c ∈ l1, p c = true) (h2 : ∀ c ∈ l2, p c = false) :
    firstRun p (l1 ++ l2) = some l1 := by
  cases l1 with
  | nil => exact absurd rfl hne
  | cons c t =>
    have hc : p c = true := h1 c (List.mem_cons_self c t)
    simp only [List.cons_append, firstRun, hc, if_pos]
    rw [List.append_eq,
      takeWhile_append_of_all p t l2 fun x hx => h1 x (List.mem_cons_of_mem c hx),
      takeWhile_eq_nil_of_all p l2 h2]
    simp

theorem upper_not_digit (c : Char) (h : isUpperAZ c = true) : isDigitCh c = false := by
  simp only [isUpperAZ, Bool.and_eq_true, decide_eq_true_eq] at h
  simp only [isDigitCh, Bool.and_eq_false_iff, decide_eq_false_iff_not, Nat.not_le]
  omega

theorem digit_not_upper (c : Char) (h : isDigitCh c = true) : isUpperAZ c = false := by
  simp only [isDigitCh, Bool.and_eq_true, decide_eq_true_eq] at h
  simp only [isUpperAZ, Bool.and_eq_false_iff, decide_eq_false_iff_not, Nat.not_le]
  omega

theorem string_mk_append (a b : List Char) :
    String.mk a ++ String.mk b = String.mk (a ++ b) := rfl

theorem string_mk_data (s : String) : String.mk s.data = s := by
  cases s
  rfl

/-! ## Claim theorems -/

/-- C2: round-trip law of the column conversions. For every positive
integer `n ≤ 18278`, `columnToNumber (getColumnLetter n) = n`, and for
every non-empty all-uppercase string of length at most 3,
`getColumnLetter (columnToNumber s) = s`. -/
theorem column_conversion_roundtrip :
    (∀ n : Nat, 1 ≤ n → n ≤ 18278 →
      columnToNumber (getColumnLetter (n : Int)) = (n : Int)) ∧
    (∀ s : String, s.data ≠ [] → (∀ c ∈ s.data, isUpperAZ c = true) →
      s.data.length ≤ 3 → getColumnLetter (columnToNumber s) = s) := by
  constructor
  · intro n _ _
    show colToNum (String.mk (numToColChars ((n : Int)).toNat)).data = (n : Int)
    rw [show (String.mk (numToColChars ((n : Int)).toNat)).data
        = numToColChars ((n : Int)).toNat from rfl,
      show ((n : Int)).toNat = n from Int.toNat_natCast n]
    exact colToNum_numToColChars n
  · intro s hne hall _
    show String.mk (numToColChars (colToNum s.data).toNat) = s
    rw [numToColChars_colToNum s.data hall]

/-- Witness for C2 at `n = 703` and `s = "ZZ"`. -/
theorem column_conversion_roundtrip_witness :
    columnToNumber (getColumnLetter ((703 : Nat) : Int)) = ((703 : Nat) : Int) ∧
    getColumnLetter (columnToNumber "ZZ") = "ZZ" :=
  ⟨column_conversion_roundtrip.1 703 (by decide) (by decide),
   column_conversion_roundtrip.2 "ZZ" (by decide) (by decide) (by decide)⟩

/-- C5 counterexample: `columnToNumber` does not fail on the empty
string; it returns the number 0. -/
theorem columnToNumber_empty_returns_zero : columnToNumber "" = 0 := by decide

/-- C5 amended: `columnToNumber` performs no input validation and never
fails. It returns 0 on the empty string, and on non-empty all-uppercase
input it returns the (positive) bijective base-26 value described by the
spec. -/
theorem columnToNumber_total_spec :
    columnToNumber "" = 0 ∧
    (∀ s : String, s.data ≠ [] → (∀ c ∈ s.data, isUpperAZ c = true) →
      1 ≤ columnToNumber s ∧ columnToNumber s = specColumnValue s.data) := by
  refine ⟨by decide, ?_⟩
  intro s hne hall
  refine ⟨colToNum_pos s.data hne hall, ?_⟩
  show colToNum s.data = specColumnValue s.data
  have hfun : (fun (r : Int) (c : Char) => r * 26 + ((c.toNat : Int) - 64))
      = fun (v : Int) (c : Char) => v * 26 + ((c.toNat : Int) - ('A'.toNat : Int) + 1) := by
    funext r c
    have hA : ('A'.toNat : Int) = 65 := rfl
    rw [hA]
    omega
  rw [colToNum, specColumnValue, hfun]

/-- Witness for the amended C5 at `s = "AB"`. -/
theorem columnToNumber_total_spec_witness :
    1 ≤ columnToNumber "AB" ∧ columnToNumber "AB" = specColumnValue "AB".data :=
  columnToNumber_total_spec.2 "AB" (by decide) (by decide)

/-- C6 counterexample: `getColumnLetter` does not fail on 0 (an input
smaller than 1); it returns the empty string. -/
theorem getColumnLetter_zero_returns_empty : getColumnLetter 0 = "" := by
  show String.mk (numToColChars (0 : Int).toNat) = ""
  rw [show (0 : Int).toNat = 0 from rfl, numToColChars_zero]

/-- C6 amended: `getColumnLetter` never fails. For every `n < 1` the
`while` loop does not run and the result is the empty string; for every
`n ≥ 1` the result is a non-empty letter string whose bijective base-26
value is `n`. -/
theorem getColumnLetter_total_spec :
    (∀ n : Int, n < 1 → getColumnLetter n = "") ∧
    (∀ n : Int, 1 ≤ n →
      getColumnLetter n ≠ "" ∧ columnToNumber (getColumnLetter n) = n) := by
  constructor
  · intro n h
    have h0 : n.toNat = 0 := by omega
    show String.mk (numToColChars n.toNat) = ""
    rw [h0, numToColChars_zero]
  · intro n h
    have hnz : n.toNat ≠ 0 := by omega
    constructor
    · intro hcontra
      have hdata : numToColChars n.toNat = [] := by
        have := congrArg String.data hcontra
        simpa using this
      rw [numToColChars_pos _ hnz] at hdata
      simp at hdata
    · show colToNum (String.mk (numToColChars n.toNat)).data = n
      rw [show (String.mk (numToColChars n.toNat)).data = numToColChars n.toNat from rfl,
        colToNum_numToColChars]
      omega

/-- Witness for the amended C6 at `n = -7` and `n = 28`. -/
theorem getColumnLetter_total_spec_witness :
    getColumnLetter (-7) = "" ∧
    (getColumnLetter 28 ≠ "" ∧ columnToNumber (getColumnLetter 28) = 28) :=
  ⟨getColumnLetter_total_spec.1 (-7) (by decide),
   getColumnLetter_total_spec.2 28 (by decide)⟩

/-- Decomposition of `getEndCell` on a canonical start reference
`<letters><digits>`: the first uppercase run is the letter part and the
first digit run is the digit part, and the result is
`getColumnLetter (col + maxRowLength - 1)` followed by the decimal
rendering of `row + length - 1`. Shared by the C3 and C10 proofs. -/
theorem getEndCell_canonical (c rs : List Char) (d : List (List String))
    (hcne : c ≠ []) (hcall : ∀ x ∈ c, isUpperAZ x = true)
    (hrne : rs ≠ []) (hrall : ∀ x ∈ rs, isDigitCh x = true) :
    getEndCell (String.mk (c ++ rs)) d =
      some (getColumnLetter (colToNum c + (getMaxRowLength d : Int) - 1) ++
        String.mk (intToDigits ((natOfDigits rs : Int) + (d.length : Int) - 1))) := by
  have hfu : firstRun isUpperAZ (c ++ rs) = some c :=
    firstRun_exact _ c rs hcne hcall fun x hx => digit_not_upper x (hrall x hx)
  have hfd : firstRun isDigitCh (c ++ rs) = some rs := by
    rw [firstRun_skip isDigitCh c rs fun x hx => upper_not_digit x (hcall x hx)]
    have := firstRun_exact isDigitCh rs [] hrne hrall (by simp)
    simpa using this
  rw [getEndCell, show (String.mk (c ++ rs)).data = c ++ rs from rfl, hfu, hfd]

/-- C3: for every tabular payload `d` and canonical start reference with
positive column and row, the end cell consists of an uppercase letter
part whose column number is `startColumn + maxRowLength d - 1`, followed
by a non-empty digit part whose value is `startRow + length d - 1`; in
particular `getEndCell "A1" [["a","b"],["c"]] = "B2"` and
`getEndCell "C5" [["x"]] = "C5"`. -/
theorem getEndCell_end_coordinates :
    (∀ (c rs : List Char) (d : List (List String)),
      c ≠ [] → (∀ x ∈ c, isUpperAZ x = true) →
      rs ≠ [] → (∀ x ∈ rs, isDigitCh x = true) →
      1 ≤ natOfDigits rs →
      ∃ ec er : List Char,
        getEndCell (String.mk (c ++ rs)) d = some (String.mk (ec ++ er)) ∧
        (∀ x ∈ ec, isUpperAZ x = true) ∧ (∀ x ∈ er, isDigitCh x = true) ∧ er ≠ [] ∧
        colToNum ec = colToNum c + (getMaxRowLength d : Int) - 1 ∧
        (natOfDigits er : Int) = (natOfDigits rs : Int) + (d.length : Int) - 1) ∧
    getEndCell "A1" [["a", "b"], ["c"]] = some "B2" ∧
    getEndCell "C5" [["x"]] = some "C5" := by
  refine ⟨?_, ?_, ?_⟩
  · intro c rs d hcne hcall hrne hrall hrpos
    have hcol1 : 1 ≤ colToNum c := colToNum_pos c hcne hcall
    have hM : 0 ≤ colToNum c + (getMaxRowLength d : Int) - 1 := by omega
    have hR : 0 ≤ (natOfDigits rs : Int) + (d.length : Int) - 1 := by omega
    refine ⟨numToColChars (colToNum c + (getMaxRowLength d : Int) - 1).toNat,
      natToDigits ((natOfDigits rs : Int) + (d.length : Int) - 1).toNat, ?_, ?_, ?_, ?_, ?_, ?_⟩
    · rw [getEndCell_canonical c rs d hcne hcall hrne hrall,
        show intToDigits ((natOfDigits rs : Int) + (d.length : Int) - 1)
          = natToDigits ((natOfDigits rs : Int) + (d.length : Int) - 1).toNat from by
            rw [intToDigits, if_neg (by omega)],
        getColumnLetter, string_mk_append]
    · exact numToColChars_upper _
    · exact natToDigits_digits _
    · exact natToDigits_ne_nil _
    · rw [colToNum_numToColChars]
      omega
    · rw [natOfDigits_natToDigits]
      omega
  · simp [getEndCell, firstRun, isUpperAZ, isDigitCh, colToNum, numToColChars,
      getColumnLetter, natOfDigits, natToDigits, intToDigits, getMaxRowLength]
  · simp [getEndCell, firstRun, isUpperAZ, isDigitCh, colToNum, numToColChars,
      getColumnLetter, natOfDigits, natToDigits, intToDigits, getMaxRowLength]

/-- Witness for C3 at start `"A1"` (as `['A'] ++ ['1']`) and the ragged
payload `[["a","b"],["c"]]`. -/
theorem getEndCell_end_coordinates_witness :
    ∃ ec er : List Char,
      getEndCell (String.mk (['A'] ++ ['1'])) [["a", "b"], ["c"]] = some (String.mk (ec ++ er)) ∧
      (∀ x ∈ ec, isUpperAZ x = true) ∧ (∀ x ∈ er, isDigitCh x = true) ∧ er ≠ [] ∧
      colToNum ec = colToNum ['A'] + (getMaxRowLength [["a", "b"], ["c"]] : Int) - 1 ∧
      (natOfDigits er : Int) =
        (natOfDigits ['1'] : Int) + (([["a", "b"], ["c"]] : List (List String)).length : Int) - 1 :=
  getEndCell_end_coordinates.1 ['A'] ['1'] [["a", "b"], ["c"]]
    (by decide) (by decide) (by decide) (by decide) (by decide)

/-- C7 counterexample: `"1A"` is not of the form
`<ColumnLetters><RowDigits>`, yet `getEndCell` succeeds on it (treating
it like `"A1"`) instead of failing. -/
theorem getEndCell_malformed_succeeds :
    isWellFormedRef "1A" = false ∧ getEndCell "1A" [["x"]] = some "A1" := by
  refine ⟨by decide, ?_⟩
  simp [getEndCell, firstRun, isUpperAZ, isDigitCh, colToNum, numToColChars,
    getColumnLetter, natOfDigits, natToDigits, intToDigits, getMaxRowLength]

/-- C7 amended: `getEndCell` fails exactly when the start string contains
no uppercase letter at all or no digit at all; any string containing at
least one uppercase letter and at least one digit succeeds, even when it
is not a well-formed `<ColumnLetters><RowDigits>` reference, because the
source matches the first letter run and the first digit run wherever
they occur. -/
theorem getEndCell_none_iff (s : String) (d : List (List String)) :
    getEndCell s d = none ↔
      (∀ c ∈ s.data, isUpperAZ c = false) ∨ (∀ c ∈ s.data, isDigitCh c = false) := by
  rw [getEndCell]
  cases hu : firstRun isUpperAZ s.data with
  | none =>
    simp only []
    constructor
    · intro _
      exact Or.inl ((firstRun_eq_none_iff _ _).mp hu)
    · intro _
      cases hd : firstRun isDigitCh s.data <;> trivial
  | some colChars =>
    cases hd : firstRun isDigitCh s.data with
    | none =>
      simp only []
      constructor
      · intro _
        exact Or.inr ((firstRun_eq_none_iff _ _).mp hd)
      · intro _
        trivial
    | some rowChars =>
      simp only []
      constructor
      · intro h
        exact absurd h (by simp)
      · intro h
        rcases h with h | h
        · rw [(firstRun_eq_none_iff _ _).mpr h] at hu
          exact Option.noConfusion hu
        · rw [(firstRun_eq_none_iff _ _).mpr h] at hd
          exact Option.noConfusion hd

/-- C10 counterexample: on empty data the end reference does not have an
empty column-letter prefix for every well-formed start: for start `"B5"`
the result is `"A4"`, not the bare digit string `"4"`. -/
theorem getEndCell_empty_data_not_always_bare :
    getEndCell "B5" [] = some "A4" ∧ some "A4" ≠ some "4" := by
  refine ⟨?_, by decide⟩
  simp [getEndCell, firstRun, isUpperAZ, isDigitCh, colToNum, numToColChars,
    getColumnLetter, natOfDigits, natToDigits, intToDigits, getMaxRowLength]

/-- C10 amended: for empty tabular data `getEndCell` does not fail: on a
well-formed start reference with letters `c` and positive row value `r`
it returns the column letters of the number `columnToNumber c - 1`
(empty exactly when the start column is `"A"`) followed by the decimal
digits of `r - 1`; in particular `getEndCell "A1" [] = some "0"`, and
`"0"` is not a well-formed cell reference. -/
theorem getEndCell_empty_data_spec :
    (∀ (c rs : List Char),
      c ≠ [] → (∀ x ∈ c, isUpperAZ x = true) →
      rs ≠ [] → (∀ x ∈ rs, isDigitCh x = true) →
      1 ≤ natOfDigits rs →
      getEndCell (String.mk (c ++ rs)) [] =
        some (getColumnLetter (colToNum c - 1) ++
          String.mk (natToDigits (natOfDigits rs - 1)))) ∧
    getEndCell "A1" [] = some "0" ∧
    isWellFormedRef "0" = false := by
  refine ⟨?_, ?_, by decide⟩
  · intro c rs hcne hcall hrne hrall hrpos
    rw [getEndCell_canonical c rs [] hcne hcall hrne hrall]
    have h1 : colToNum c + ((getMaxRowLength [] : Nat) : Int) - 1 = colToNum c - 1 := by
      simp [getMaxRowLength]
    have h2 : intToDigits ((natOfDigits rs : Int) + (([] : List (List String)).length : Int) - 1)
        = natToDigits (natOfDigits rs - 1) := by
      rw [intToDigits, if_neg (by simp only [List.length_nil]; push_cast; omega)]
      congr 1
      simp only [List.length_nil]
      omega
    rw [h1, h2]
  · simp [getEndCell, firstRun, isUpperAZ, isDigitCh, colToNum, numToColChars,
      getColumnLetter, natOfDigits, natToDigits, intToDigits, getMaxRowLength]

/-- Witness for the amended C10 at start `"B5"` (as `['B'] ++ ['5']`). -/
theorem getEndCell_empty_data_spec_witness :
    getEndCell (String.mk (['B'] ++ ['5'])) [] =
      some (getColumnLetter (colToNum ['B'] - 1) ++
        String.mk (natToDigits (natOfDigits ['5'] - 1))) :=
  getEndCell_empty_data_spec.1 ['B'] ['5']
    (by decide) (by decide) (by decide) (by decide) (by decide)

/-! ## Helper lemmas: validator -/

theorem checkOps_append_ok :
    ∀ (pre : List RawOp) (rest : List RawOp) (i : Nat),
      (∀ p ∈ pre, opOk p = true) →
      checkOps i (pre ++ rest) = checkOps (i + pre.length) rest := by
  intro pre
  induction pre with
  | nil => intro rest i _; simp
  | cons op t ih =>
    intro rest i hall
    have hok := hall op (List.mem_cons_self op t)
    simp only [opOk, Bool.and_eq_true, Bool.not_eq_true'] at hok
    obtain ⟨⟨⟨h1, h2⟩, h3⟩, h4⟩ := hok
    simp only [List.cons_append, checkOps, h1, h2, h3, h4, Bool.false_eq_true, if_false]
    rw [List.append_eq, ih rest (i + 1) fun p hp => hall p (List.mem_cons_of_mem op hp)]
    congr 1
    simp
    omega

theorem checkOps_ok_of_all (ops : List RawOp) (i : Nat)
    (hall : ∀ p ∈ ops, opOk p = true) : checkOps i ops = Except.ok () := by
  have := checkOps_append_ok ops [] i hall
  simpa using this

theorem validate_error_sheetName (pre : List RawOp) (op : RawOp) (post : List RawOp)
    (hall : ∀ p ∈ pre, opOk p = true) (h : falsy op.sheetName = true) :
    validateConfigOperations (pre ++ op :: post) =
      Except.error ("Operation #" ++ toString (pre.length + 1) ++ " is missing sheetName") := by
  rw [validateConfigOperations, if_neg (by simp),
    checkOps_append_ok pre (op :: post) 1 hall]
  simp only [checkOps, h, if_true, Nat.add_comm 1 pre.length]

theorem validate_error_dataPath (pre : List RawOp) (op : RawOp) (post : List RawOp)
    (hall : ∀ p ∈ pre, opOk p = true)
    (h1 : falsy op.sheetName = false) (h2 : falsy op.dataPath = true) :
    validateConfigOperations (pre ++ op :: post) =
      Except.error ("Operation #" ++ toString (pre.length + 1) ++ " is missing dataPath") := by
  rw [validateConfigOperations, if_neg (by simp),
    checkOps_append_ok pre (op :: post) 1 hall]
  simp only [checkOps, h1, h2, Bool.false_eq_true, if_false, if_true,
    Nat.add_comm 1 pre.length]

theorem validate_error_operationType (pre : List RawOp) (op : RawOp) (post : List RawOp)
    (hall : ∀ p ∈ pre, opOk p = true)
    (h1 : falsy op.sheetName = false) (h2 : falsy op.dataPath = false)
    (h3 : falsy op.operationType = true) :
    validateConfigOperations (pre ++ op :: post) =
      Except.error ("Operation #" ++ toString (pre.length + 1) ++ " is missing operationType") := by
  rw [validateConfigOperations, if_neg (by simp),
    checkOps_append_ok pre (op :: post) 1 hall]
  simp only [checkOps, h1, h2, h3, Bool.false_eq_true, if_false, if_true,
    Nat.add_comm 1 pre.length]

theorem validate_error_cellId (pre : List RawOp) (op : RawOp) (post : List RawOp)
    (hall : ∀ p ∈ pre, opOk p = true)
    (h1 : falsy op.sheetName = false) (h2 : falsy op.dataPath = false)
    (h3 : op.operationType = some "replaceAtCell") (h4 : falsy op.cellId = true) :
    validateConfigOperations (pre ++ op :: post) =
      Except.error ("Operation #" ++ toString (pre.length + 1) ++
        " with type replaceAtCell is missing cellId") := by
  have h3f : falsy op.operationType = false := by
    rw [h3]
    rfl
  have hguard : (op.operationType == some "replaceAtCell" && falsy op.cellId) = true := by
    rw [h3, h4]
    rfl
  rw [validateConfigOperations, if_neg (by simp),
    checkOps_append_ok pre (op :: post) 1 hall]
  simp only [checkOps, h1, h2, h3f, hguard, Bool.false_eq_true, if_false, if_true,
    Nat.add_comm 1 pre.length]

/-- C4: raises-iff contract of the operations validator. The empty batch
fails with the non-empty-array error; a batch whose elements all pass
the per-element checks validates; and for the first defective element
(all elements before it passing), the error cites the first missing
field among `sheetName`, `dataPath`, `operationType` — or the
`replaceAtCell`-specific missing `cellId` — together with the 1-based
index of the element. -/
theorem validateConfig_operations_contract :
    (validateConfigOperations [] = Except.error "Operations must be a non-empty array") ∧
    (∀ ops : List RawOp, ops ≠ [] → (∀ p ∈ ops, opOk p = true) →
      validateConfigOperations ops = Except.ok ()) ∧
    (∀ (pre : List RawOp) (op : RawOp) (post : List RawOp),
      (∀ p ∈ pre, opOk p = true) →
      ((falsy op.sheetName = true →
          validateConfigOperations (pre ++ op :: post) =
            Except.error ("Operation #" ++ toString (pre.length + 1) ++ " is missing sheetName")) ∧
       (falsy op.sheetName = false → falsy op.dataPath = true →
          validateConfigOperations (pre ++ op :: post) =
            Except.error ("Operation #" ++ toString (pre.length + 1) ++ " is missing dataPath")) ∧
       (falsy op.sheetName = false → falsy op.dataPath = false →
          falsy op.operationType = true →
          validateConfigOperations (pre ++ op :: post) =
            Except.error
              ("Operation #" ++ toString (pre.length + 1) ++ " is missing operationType")) ∧
       (falsy op.sheetName = false → falsy op.dataPath = false →
          op.operationType = some "replaceAtCell" → falsy op.cellId = true →
          validateConfigOperations (pre ++ op :: post) =
            Except.error ("Operation #" ++ toString (pre.length + 1) ++
              " with type replaceAtCell is missing cellId")))) := by
  refine ⟨by rfl, ?_, ?_⟩
  · intro ops hne hall
    rw [validateConfigOperations, if_neg (by simpa using hne)]
    exact checkOps_ok_of_all ops 1 hall
  · intro pre op post hall
    exact ⟨fun h => validate_error_sheetName pre op post hall h,
      fun h1 h2 => validate_error_dataPath pre op post hall h1 h2,
      fun h1 h2 h3 => validate_error_operationType pre op post hall h1 h2 h3,
      fun h1 h2 h3 h4 => validate_error_cellId pre op post hall h1 h2 h3 h4⟩

/-- Witness for C4: a singleton batch missing `dataPath` fails citing
`dataPath` and operation 1; a complete batch validates. -/
theorem validateConfig_operations_contract_witness :
    validateConfigOperations [RawOp.mk (some "S") none none none] =
      Except.error ("Operation #" ++ toString ((List.length ([] : List RawOp)) + 1) ++
        " is missing dataPath") ∧
    validateConfigOperations
      [RawOp.mk (some "S") (some "d.csv") (some "replaceEntireSheet") none] =
      Except.ok () :=
  ⟨(validateConfig_operations_contract.2.2 [] (RawOp.mk (some "S") none none none) []
      (by simp)).2.1 (by decide) (by decide),
   validateConfig_operations_contract.2.1
     [RawOp.mk (some "S") (some "d.csv") (some "replaceEntireSheet") none]
     (by decide) (by decide)⟩

/-- C9: the validator treats a present-but-empty string field exactly as
an absent one. For the first defective element, an empty `sheetName`,
`dataPath` or `operationType` fails with the same missing-field message
as when the field is absent, and an empty `cellId` on a `replaceAtCell`
operation fails with the same missing-cellId message as when `cellId` is
absent. -/
theorem validateConfig_empty_string_like_absent :
    ∀ (pre : List RawOp) (op : RawOp) (post : List RawOp),
      (∀ p ∈ pre, opOk p = true) →
      ((op.sheetName = some "" →
          validateConfigOperations (pre ++ op :: post) =
            Except.error ("Operation #" ++ toString (pre.length + 1) ++ " is missing sheetName") ∧
          validateConfigOperations (pre ++ { op with sheetName := none } :: post) =
            Except.error
              ("Operation #" ++ toString (pre.length + 1) ++ " is missing sheetName")) ∧
       (falsy op.sheetName = false → op.dataPath = some "" →
          validateConfigOperations (pre ++ op :: post) =
            Except.error ("Operation #" ++ toString (pre.length + 1) ++ " is missing dataPath") ∧
          validateConfigOperations (pre ++ { op with dataPath := none } :: post) =
            Except.error
              ("Operation #" ++ toString (pre.length + 1) ++ " is missing dataPath")) ∧
       (falsy op.sheetName = false → falsy op.dataPath = false →
          op.operationType = some "" →
          validateConfigOperations (pre ++ op :: post) =
            Except.error
              ("Operation #" ++ toString (pre.length + 1) ++ " is missing operationType") ∧
          validateConfigOperations (pre ++ { op with operationType := none } :: post) =
            Except.error
              ("Operation #" ++ toString (pre.length + 1) ++ " is missing operationType")) ∧
       (falsy op.sheetName = false → falsy op.dataPath = false →
          op.operationType = some "replaceAtCell" → op.cellId = some "" →
          validateConfigOperations (pre ++ op :: post) =
            Except.error ("Operation #" ++ toString (pre.length + 1) ++
              " with type replaceAtCell is missing cellId") ∧
          validateConfigOperations (pre ++ { op with cellId := none } :: post) =
            Except.error ("Operation #" ++ toString (pre.length + 1) ++
              " with type replaceAtCell is missing cellId"))) := by
  intro pre op post hall
  refine ⟨?_, ?_, ?_, ?_⟩
  · intro h
    exact ⟨validate_error_sheetName pre op post hall (by rw [h]; rfl),
      validate_error_sheetName pre _ post hall rfl⟩
  · intro h1 h2
    exact ⟨validate_error_dataPath pre op post hall h1 (by rw [h2]; rfl),
      validate_error_dataPath pre _ post hall h1 rfl⟩
  · intro h1 h2 h3
    exact ⟨validate_error_operationType pre op post hall h1 h2 (by rw [h3]; rfl),
      validate_error_operationType pre _ post hall h1 h2 rfl⟩
  · intro h1 h2 h3 h4
    exact ⟨validate_error_cellId pre op post hall h1 h2 h3 (by rw [h4]; rfl),
      validate_error_cellId pre _ post hall h1 h2 h3 rfl⟩

/-- Witness for C9: an operation with `sheetName = ""` fails like one
with no `sheetName`. -/
theorem validateConfig_empty_string_like_absent_witness :
    validateConfigOperations
        [RawOp.mk (some "") (some "d.csv") (some "replaceEntireSheet") none] =
      Except.error ("Operation #" ++ toString ((List.length ([] : List RawOp)) + 1) ++
        " is missing sheetName") ∧
    validateConfigOperations
        [RawOp.mk none (some "d.csv") (some "replaceEntireSheet") none] =
      Except.error ("Operation #" ++ toString ((List.length ([] : List RawOp)) + 1) ++
        " is missing sheetName") :=
  (validateConfig_empty_string_like_absent []
    (RawOp.mk (some "") (some "d.csv") (some "replaceEntireSheet") none) []
    (by simp)).1 rfl

/-! ## Helper lemmas: dispatcher -/

theorem processOps_skip (registry : String → Option Nat)
    (loader : String → Except String (List (List String)))
    (op : DispOp) (rest : List DispOp)
    (h : truthyId (registry op.sheetName) = false) :
    processDataOperations registry loader (op :: rest) =
      (Event.warnSheetNotFound op.sheetName ::
        (processDataOperations registry loader rest).1,
       (processDataOperations registry loader rest).2) := by
  simp [processDataOperations, h]

theorem processOps_loadfail (registry : String → Option Nat)
    (loader : String → Except String (List (List String)))
    (op : DispOp) (rest : List DispOp) (e : String)
    (h : truthyId (registry op.sheetName) = true)
    (hl : loader op.dataPath = Except.error e) :
    processDataOperations registry loader (op :: rest) = ([], some e) := by
  simp [processDataOperations, h, hl]

theorem processOps_entire (registry : String → Option Nat)
    (loader : String → Except String (List (List String)))
    (op : DispOp) (rest : List DispOp) (csvData : List (List String))
    (h : truthyId (registry op.sheetName) = true)
    (hl : loader op.dataPath = Except.ok csvData)
    (ht : op.operationType = "replaceEntireSheet") :
    processDataOperations registry loader (op :: rest) =
      (replaceEntireSheet op.sheetName csvData ++
        (processDataOperations registry loader rest).1,
       (processDataOperations registry loader rest).2) := by
  simp [processDataOperations, h, hl, ht]

theorem processOps_atCell_fail (registry : String → Option Nat)
    (loader : String → Except String (List (List String)))
    (op : DispOp) (rest : List DispOp) (csvData : List (List String)) (e : String)
    (h : truthyId (registry op.sheetName) = true)
    (hl : loader op.dataPath = Except.ok csvData)
    (ht : op.operationType = "replaceAtCell")
    (hr : replaceAtCell op.sheetName op.cellId csvData = Except.error e) :
    processDataOperations registry loader (op :: rest) = ([], some e) := by
  simp [processDataOperations, h, hl, ht, hr]

theorem processOps_atCell_ok (registry : String → Option Nat)
    (loader : String → Except String (List (List String)))
    (op : DispOp) (rest : List DispOp) (csvData : List (List String))
    (evs : List Event)
    (h : truthyId (registry op.sheetName) = true)
    (hl : loader op.dataPath = Except.ok csvData)
    (ht : op.operationType = "replaceAtCell")
    (hr : replaceAtCell op.sheetName op.cellId csvData = Except.ok evs) :
    processDataOperations registry loader (op :: rest) =
      (evs ++ (processDataOperations registry loader rest).1,
       (processDataOperations registry loader rest).2) := by
  simp [processDataOperations, h, hl, ht, hr]

theorem processOps_unknown (registry : String → Option Nat)
    (loader : String → Except String (List (List String)))
    (op : DispOp) (rest : List DispOp) (csvData : List (List String))
    (h : truthyId (registry op.sheetName) = true)
    (hl : loader op.dataPath = Except.ok csvData)
    (ht1 : op.operationType ≠ "replaceEntireSheet")
    (ht2 : op.operationType ≠ "replaceAtCell") :
    processDataOperations registry loader (op :: rest) =
      (Event.warnUnknownType op.operationType ::
        (processDataOperations registry loader rest).1,
       (processDataOperations registry loader rest).2) := by
  simp [processDataOperations, h, hl, ht1, ht2]

/-- C8: the dispatcher processes operations strictly in declared order —
the events of a batch are the events of a fatal-free prefix followed by
the events of the remainder — and a data-source load failure on an
operation is fatal to the whole run: the loader error is propagated and
no event of any later operation is emitted. -/
theorem processDataOperations_order_and_fatal :
    (∀ (registry : String → Option Nat)
       (loader : String → Except String (List (List String)))
       (ops1 ops2 : List DispOp),
      (processDataOperations registry loader ops1).2 = none →
      processDataOperations registry loader (ops1 ++ ops2) =
        ((processDataOperations registry loader ops1).1 ++
          (processDataOperations registry loader ops2).1,
         (processDataOperations registry loader ops2).2)) ∧
    (∀ (registry : String → Option Nat)
       (loader : String → Except String (List (List String)))
       (pre : List DispOp) (op : DispOp) (post : List DispOp) (e : String),
      (processDataOperations registry loader pre).2 = none →
      truthyId (registry op.sheetName) = true →
      loader op.dataPath = Except.error e →
      processDataOperations registry loader (pre ++ op :: post) =
        ((processDataOperations registry loader pre).1, some e)) := by
  have hA : ∀ (registry : String → Option Nat)
      (loader : String → Except String (List (List String)))
      (ops1 ops2 : List DispOp),
      (processDataOperations registry loader ops1).2 = none →
      processDataOperations registry loader (ops1 ++ ops2) =
        ((processDataOperations registry loader ops1).1 ++
          (processDataOperations registry loader ops2).1,
         (processDataOperations registry loader ops2).2) := by
    intro R L ops1
    induction ops1 with
    | nil =>
      intro ops2 _
      simp [processDataOperations]
    | cons op rest ih =>
      intro ops2 h
      cases htb : truthyId (R op.sheetName) with
      | false =>
        rw [processOps_skip R L op rest htb] at h
        rw [List.cons_append, processOps_skip R L op (rest ++ ops2) htb,
          processOps_skip R L op rest htb, ih ops2 (by simpa using h)]
        simp
      | true =>
        cases hl : L op.dataPath with
        | error e =>
          rw [processOps_loadfail R L op rest e htb hl] at h
          simp at h
        | ok csvData =>
          by_cases ht1 : op.operationType = "replaceEntireSheet"
          · rw [processOps_entire R L op rest csvData htb hl ht1] at h
            rw [List.cons_append, processOps_entire R L op (rest ++ ops2) csvData htb hl ht1,
              processOps_entire R L op rest csvData htb hl ht1, ih ops2 (by simpa using h)]
            simp
          · by_cases ht2 : op.operationType = "replaceAtCell"
            · cases hr : replaceAtCell op.sheetName op.cellId csvData with
              | error e =>
                rw [processOps_atCell_fail R L op rest csvData e htb hl ht2 hr] at h
                simp at h
              | ok evs =>
                rw [processOps_atCell_ok R L op rest csvData evs htb hl ht2 hr] at h
                rw [List.cons_append,
                  processOps_atCell_ok R L op (rest ++ ops2) csvData evs htb hl ht2 hr,
                  processOps_atCell_ok R L op rest csvData evs htb hl ht2 hr,
                  ih ops2 (by simpa using h)]
                simp
            · rw [processOps_unknown R L op rest csvData htb hl ht1 ht2] at h
              rw [List.cons_append, processOps_unknown R L op (rest ++ ops2) csvData htb hl ht1 ht2,
                processOps_unknown R L op rest csvData htb hl ht1 ht2, ih ops2 (by simpa using h)]
              simp
  refine ⟨hA, ?_⟩
  intro R L pre op post e hpre htr hl
  rw [hA R L pre (op :: post) hpre, processOps_loadfail R L op post e htr hl]
  simp

/-- Witness for C8: three operations, the second of which has an
unreadable data source; the run aborts with the loader error after the
first operation's events, and the third operation emits nothing. -/
theorem processDataOperations_order_and_fatal_witness :
    processDataOperations (fun _ => some 1)
        (fun p => if p = "two.csv" then Except.error "boom" else Except.ok [["x"]])
        ([DispOp.mk "S1" "one.csv" "replaceEntireSheet" none] ++
          DispOp.mk "S2" "two.csv" "replaceEntireSheet" none ::
            [DispOp.mk "S3" "three.csv" "replaceEntireSheet" none]) =
      ((processDataOperations (fun _ => some 1)
          (fun p => if p = "two.csv" then Except.error "boom" else Except.ok [["x"]])
          [DispOp.mk "S1" "one.csv" "replaceEntireSheet" none]).1, some "boom") :=
  processDataOperations_order_and_fatal.2
    (fun _ => some 1)
    (fun p => if p = "two.csv" then Except.error "boom" else Except.ok [["x"]])
    [DispOp.mk "S1" "one.csv" "replaceEntireSheet" none]
    (DispOp.mk "S2" "two.csv" "replaceEntireSheet" none)
    [DispOp.mk "S3" "three.csv" "replaceEntireSheet" none]
    "boom" (by decide) (by decide) (by rfl)

/-- C1 (code behavior at the claimed input): with the registry mapping
`"Sheet1"` to the numeric sheet id 0, the dispatcher warns and skips BOTH
operations — the absent `"Missing"` and the present `"Sheet1"` — because
`!sheetsMap["Sheet1"]` is true for the falsy id 0; no clear or write
event is issued. With any non-zero id for `"Sheet1"` the same batch
skips the first operation and executes the second as clear-then-write,
as the claim describes. -/
theorem processDataOperations_sheetId_zero_bug :
    processDataOperations (fun n => if n = "Sheet1" then some 0 else none)
        (fun _ => Except.ok [["x"]])
        [DispOp.mk "Missing" "m.csv" "replaceEntireSheet" none,
         DispOp.mk "Sheet1" "d.csv" "replaceEntireSheet" none] =
      ([Event.warnSheetNotFound "Missing", Event.warnSheetNotFound "Sheet1"], none) ∧
    processDataOperations (fun n => if n = "Sheet1" then some 5 else none)
        (fun _ => Except.ok [["x"]])
        [DispOp.mk "Missing" "m.csv" "replaceEntireSheet" none,
         DispOp.mk "Sheet1" "d.csv" "replaceEntireSheet" none] =
      ([Event.warnSheetNotFound "Missing", Event.clearValues "Sheet1",
        Event.updateValues "Sheet1" [["x"]]], none) := by
  constructor <;> decide

end CsvToSheet
